import Mathlib

/-!
Verification of the rabbitspy terminal dashboard for RabbitMQ against its
natural-language specification.  The Go source (three program variants in
`main.go`) is shallowly embedded: strings are modelled as `List Char`
(one element per byte), machine integers as `Int`/`Nat`, JSON numbers as
`Rat`, fallible operations as `Except`.  Stateful loops are embedded as
structurally recursive functions over an explicit script of the external
events (fetch results, declare results, consume attempts) they react to.
-/

/-! ## truncate (colored-table variant, main.go lines 544-549)

Go:
```
func truncate(s string, max int) string {
    if len(s) <= max {
        return s + strings.Repeat(" ", max-len(s))
    }
    return s[:max-3] + "..." + strings.Repeat(" ", max-len(s[:max-3]+"..."))
}
```
Bytes of the Go string are modelled as elements of a `List Char`;
`len` is `List.length`, `s[:n]` is `List.take n`, `strings.Repeat " " n`
is `List.replicate n spaceChar`.  The model is meaningful for `3 ≤ max`
(for `max < 3` and a long `s` the Go slice index `max-3` is negative and
the program panics; `Nat` subtraction instead truncates at 0). -/
def spaceChar : Char := Char.ofNat 32

def truncate (s : List Char) (max : Nat) : List Char :=
  if s.length ≤ max then
    s ++ List.replicate (max - s.length) spaceChar
  else
    let t := s.take (max - 3) ++ ['.', '.', '.']
    t ++ List.replicate (max - t.length) spaceChar

/-! ## AlertEvaluator (spec §4.2, §3 AlertState)

The repository's alerting variant (the build manifest lists the `beep`
audio and `termui` libraries) is not among the source files; the alert
evaluator is therefore modelled from the spec. -/

/-- Modelled from the spec: the decision of `AlertEvaluator.evaluate` is
binary, `raise` or `suppress` (§4.2); the evaluator code itself is
missing from the provided sources. -/
inductive AlertDecision where
  | raise
  | suppress
deriving DecidableEq, Repr

/-- Modelled from the spec: `AlertState` is "a single mutable record:
{lastAlertTimestamp, cooldownDuration}" (§3); times in seconds as `Nat`. -/
structure AlertState where
  lastAlertTimestamp : Nat
  cooldownDuration : Nat
deriving DecidableEq, Repr

/-- ASCII lower-casing of one character. -/
def lowerChar (c : Char) : Char :=
  if 'A' ≤ c ∧ c ≤ 'Z' then Char.ofNat (c.toNat + 32) else c

/-- The literal token `"error"`. -/
def errTok : List Char := ['e', 'r', 'r', 'o', 'r']

/-- Modelled from the spec: a queue is "alerting" if its name,
case-insensitively, starts or ends with the literal token "error" (§4.2).
The name's bytes are lower-cased and compared against the token at the
front and (via `reverse`) at the back. -/
def isAlerting (name : String) : Bool :=
  let l := name.data.map lowerChar
  (l.take 5 = errTok) || (l.reverse.take 5 = errTok.reverse)

/-- Modelled from the spec: `evaluate(snapshot) -> AlertDecision`, `raise`
iff at least one alerting queue exists AND the cooldown has elapsed
(`now - lastAlertTimestamp ≥ cooldownDuration`), else `suppress`; firing
updates `lastAlertTimestamp` to `now` (§4.2, §3).  The snapshot enters
only through its queue names. -/
def AlertEvaluator.evaluate (names : List String) (st : AlertState) (now : Nat) :
    AlertDecision × AlertState :=
  if names.any isAlerting ∧ st.cooldownDuration ≤ now - st.lastAlertTimestamp then
    (AlertDecision.raise, { st with lastAlertTimestamp := now })
  else
    (AlertDecision.suppress, st)

/-! ## ConsumerManager: startMonitoring (TUI variant, main.go lines 361-391)

Go loop body, for each selected queue name:
```
_, err := ch.QueueDeclarePassive(queueName, true, false, false, false, nil)
if err != nil {
    log.Printf("Queue %s does not exist or error occurred: %v", queueName, err)
    if ch.IsClosed() {
        log.Println("Channel is closed, attempting to reconnect...")
        return fmt.Errorf("channel is closed")
    }
    continue
}
go m.consumeQueue(queueName)
```
The broker's answer to one passive declare is the environment's input. -/

/-- Outcome of one `QueueDeclarePassive` call: success, or failure
together with what `ch.IsClosed()` reports at that moment. -/
inductive DeclareResult where
  | ok
  | fail (channelClosed : Bool)
deriving DecidableEq, Repr

/-- Embedding of `startMonitoring` over the selected queue list: `.ok started` with the
queues whose consumer goroutine was started (in order), or `.error ()`
when a failed declare finds the channel closed (the Go
`return fmt.Errorf("channel is closed")`); a failed declare on a usable
channel just logs and `continue`s to the next queue. -/
def startMonitoring (queues : List String) (declare : String → DeclareResult) :
    Except Unit (List String) :=
  match queues with
  | [] => .ok []
  | q :: qs =>
    match declare q with
    | .ok =>
      match startMonitoring qs declare with
      | .ok started => .ok (q :: started)
      | .error e => .error e
    | .fail true => .error ()
    | .fail false => startMonitoring qs declare

/-- The sequence of queue names passed to `QueueDeclarePassive`, in call
order: one call per selected queue until (and including) the first
failure that finds the channel closed, which aborts the loop. -/
def declareCalls (queues : List String) (declare : String → DeclareResult) :
    List String :=
  match queues with
  | [] => []
  | q :: qs =>
    match declare q with
    | .fail true => [q]
    | _ => q :: declareCalls qs declare

/-- The `enter` branch of `Update` (main.go lines 286-300): on a non-nil
error from `startMonitoring` it invokes `log.Fatalf` -- process
termination.  `true` = the process is terminated. -/
def updateEnterFatal (queues : List String) (declare : String → DeclareResult) :
    Bool :=
  match startMonitoring queues declare with
  | .ok _ => false
  | .error _ => true

/-! ## consumeQueue (TUI variant, main.go lines 394-422)

Go:
```
for {
    msgs, err := m.channel.Consume(queueName, "", true, false, false, false, nil)
    if err != nil {
        log.Printf("Failed to consume messages from %s: %v", queueName, err)
        if m.channel.IsClosed() {
            log.Println("Channel is closed, stopping consumer goroutine...")
            return
        }
        time.Sleep(5 * time.Second) // Wait before retrying
        continue
    }
    for d := range msgs {
        msg := fmt.Sprintf("[%s] Received message: %s", queueName, d.Body)
        m.messages[queueName] = append(m.messages[queueName], msg)
    }
    time.Sleep(5 * time.Second) // Wait before retrying
}
```
The environment's input per loop iteration is one `ConsumeAttempt`. -/

/-- One iteration's input from the broker: `Consume` fails (together with
what `IsClosed()` then reports), or succeeds with the finite stream of
delivery bodies received before the stream ends. -/
inductive ConsumeAttempt where
  | consumeErr (channelClosed : Bool)
  | stream (bodies : List String)
deriving DecidableEq, Repr

/-- Status of one consumer task, per the spec's state machine (§4.3). -/
inductive ConsumerStatus where
  | starting
  | running
  | retrying
  | stopped
deriving DecidableEq, Repr

/-- The Go format `fmt.Sprintf("[%s] Received message: %s", queueName, d.Body)`. -/
def formatMsg (queueName body : String) : String :=
  "[" ++ queueName ++ "] Received message: " ++ body

/-- The status trace of `consumeQueue`'s loop (the initial `starting` is
prepended by the caller): a `Consume` error with the channel closed
returns (`stopped`; the rest of the script is unreachable); a `Consume`
error on a usable channel sleeps the fixed 5s delay and retries
(`retrying`, `starting`); a successful subscription runs until its stream
ends, then sleeps the fixed delay and resubscribes
(`running`, `retrying`, `starting`). -/
def consumeTrace : List ConsumeAttempt → List ConsumerStatus
  | [] => []
  | ConsumeAttempt.consumeErr true :: _ => [ConsumerStatus.stopped]
  | ConsumeAttempt.consumeErr false :: rest =>
    ConsumerStatus.retrying :: ConsumerStatus.starting :: consumeTrace rest
  | ConsumeAttempt.stream _ :: rest =>
    ConsumerStatus.running :: ConsumerStatus.retrying :: ConsumerStatus.starting ::
      consumeTrace rest

/-- The buffer-and-exit behaviour of `consumeQueue` on queue `q`: each
delivered body is appended to the buffer formatted by `formatMsg`; the
second component records whether the goroutine returned, which happens
only on a `Consume` error with the channel closed. -/
def consumeRun (q : String) (buf : List String) :
    List ConsumeAttempt → List String × Bool
  | [] => (buf, false)
  | ConsumeAttempt.consumeErr true :: _ => (buf, true)
  | ConsumeAttempt.consumeErr false :: rest => consumeRun q buf rest
  | ConsumeAttempt.stream bodies :: rest =>
    consumeRun q (buf ++ bodies.map (formatMsg q)) rest

/-! ## The shared message store `m.messages` (main.go lines 415-418) -/

/-- One append `m.messages[queueName] = append(m.messages[queueName], msg)`
on the map from queue name to buffer, modelled as a function update. -/
def appendMessage (store : String → List String) (q body : String) :
    String → List String :=
  fun r => if r = q then store r ++ [formatMsg q body] else store r

/-- Processing a session's deliveries `(queue, body)` in global receipt
order: an arbitrary interleaving of the consumer tasks' appends. -/
def processDeliveries (store : String → List String) :
    List (String × String) → (String → List String)
  | [] => store
  | (q, b) :: rest => processDeliveries (appendMessage store q b) rest

/-- The empty message map (`make(map[string][]string)`). -/
def emptyStore : String → List String := fun _ => []

/-! ## QueueInfo and the stats decode (tabwriter variant, main.go 27-43, 61-88)

`getQueues` fetches `GET /api/queues` and runs
`json.Unmarshal(body, &queues)` with `var queues []QueueInfo`.  The HTTP
transport is external; the decode of an already-parsed JSON document is
embedded.  Go `encoding/json` semantics for this struct: the top level
must be an array (or `null`, leaving the nil slice); each element must be
an object (or `null`, leaving the zero struct); object keys are matched
case-insensitively against the struct tags, later duplicates overwriting
earlier ones; unknown keys are ignored; `null` values are no-ops; a
recognized key whose value has the wrong JSON type is a decode error.
JSON numbers are modelled as `Rat`; a number decodes into an `int` field
iff it is integral (denominator 1). -/

/-- The nested `MessageStats` struct of `QueueInfo` (main.go 36-42). -/
structure MessageStats where
  publish : Int
  deliverGet : Int
  deliverGetRate : Rat
  ack : Int
  ackRate : Rat
deriving DecidableEq, Repr

/-- The struct `QueueInfo` (main.go 27-43). -/
structure QueueInfo where
  name : String
  vhost : String
  type : String
  state : String
  features : List String
  messages : Int
  messagesReady : Int
  messagesUnack : Int
  messageStats : MessageStats
deriving DecidableEq, Repr

/-- The Go zero value of `MessageStats`. -/
def zeroStats : MessageStats := ⟨0, 0, 0, 0, 0⟩

/-- The Go zero value of `QueueInfo` (nil slice modelled as `[]`). -/
def zeroQueueInfo : QueueInfo := ⟨"", "", "", "", [], 0, 0, 0, zeroStats⟩

/-- A parsed JSON document. -/
inductive Json where
  | null
  | bool (b : Bool)
  | num (q : Rat)
  | str (s : String)
  | arr (elems : List Json)
  | obj (fields : List (String × Json))

/-- ASCII-lower-cased key, for Go's case-insensitive field matching. -/
def lowerKey (s : String) : String := String.mk (s.data.map lowerChar)

/-- Decode a JSON value into a Go `string` field with current value
`cur` (`null` is a no-op). -/
def goStr (cur : String) : Json → Except Unit String
  | Json.str s => .ok s
  | Json.null => .ok cur
  | _ => .error ()

/-- Decode a JSON value into a Go `int` field: integral numbers only. -/
def goInt (cur : Int) : Json → Except Unit Int
  | Json.num q => if q.den = 1 then .ok q.num else .error ()
  | Json.null => .ok cur
  | _ => .error ()

/-- Decode a JSON value into a Go `float64` field (value kept as `Rat`). -/
def goRat (cur : Rat) : Json → Except Unit Rat
  | Json.num q => .ok q
  | Json.null => .ok cur
  | _ => .error ()

/-- Decode one element of a `[]string` (a fresh element is zero, so
`null` leaves `""`). -/
def goStrElem : Json → Except Unit String
  | Json.str s => .ok s
  | Json.null => .ok ""
  | _ => .error ()

/-- Decode the elements of a JSON array into `[]string`. -/
def goStrElems : List Json → Except Unit (List String)
  | [] => .ok []
  | x :: xs =>
    match goStrElem x with
    | .error e => .error e
    | .ok s =>
      match goStrElems xs with
      | .error e => .error e
      | .ok ss => .ok (s :: ss)

/-- Decode a JSON value into a Go `[]string` field. -/
def goStrList (cur : List String) : Json → Except Unit (List String)
  | Json.arr xs => goStrElems xs
  | Json.null => .ok cur
  | _ => .error ()

/-- Dispatch one object entry into the `MessageStats` struct by its tag
(`json:"publish"` etc.); unknown keys are ignored. -/
def setStatsField (ms : MessageStats) (key : String) (v : Json) :
    Except Unit MessageStats :=
  if lowerKey key = "publish" then
    (goInt ms.publish v).map fun x => { ms with publish := x }
  else if lowerKey key = "deliver_get" then
    (goInt ms.deliverGet v).map fun x => { ms with deliverGet := x }
  else if lowerKey key = "deliver_get_details.rate" then
    (goRat ms.deliverGetRate v).map fun x => { ms with deliverGetRate := x }
  else if lowerKey key = "ack" then
    (goInt ms.ack v).map fun x => { ms with ack := x }
  else if lowerKey key = "ack_details.rate" then
    (goRat ms.ackRate v).map fun x => { ms with ackRate := x }
  else .ok ms

/-- Fold the entries of a JSON object into `MessageStats`, in order. -/
def setStatsFields (ms : MessageStats) :
    List (String × Json) → Except Unit MessageStats
  | [] => .ok ms
  | (k, v) :: fs =>
    match setStatsField ms k v with
    | .error e => .error e
    | .ok ms' => setStatsFields ms' fs

/-- Decode a JSON value into the nested `MessageStats` struct field. -/
def goStats (cur : MessageStats) : Json → Except Unit MessageStats
  | Json.obj fs => setStatsFields cur fs
  | Json.null => .ok cur
  | _ => .error ()

/-- Dispatch one object entry into `QueueInfo` by its tag. -/
def setQueueField (qi : QueueInfo) (key : String) (v : Json) :
    Except Unit QueueInfo :=
  if lowerKey key = "name" then
    (goStr qi.name v).map fun x => { qi with name := x }
  else if lowerKey key = "vhost" then
    (goStr qi.vhost v).map fun x => { qi with vhost := x }
  else if lowerKey key = "type" then
    (goStr qi.type v).map fun x => { qi with type := x }
  else if lowerKey key = "state" then
    (goStr qi.state v).map fun x => { qi with state := x }
  else if lowerKey key = "features" then
    (goStrList qi.features v).map fun x => { qi with features := x }
  else if lowerKey key = "messages" then
    (goInt qi.messages v).map fun x => { qi with messages := x }
  else if lowerKey key = "messages_ready" then
    (goInt qi.messagesReady v).map fun x => { qi with messagesReady := x }
  else if lowerKey key = "messages_unacknowledged" then
    (goInt qi.messagesUnack v).map fun x => { qi with messagesUnack := x }
  else if lowerKey key = "message_stats" then
    (goStats qi.messageStats v).map fun x => { qi with messageStats := x }
  else .ok qi

/-- Fold the entries of a JSON object into `QueueInfo`, in order. -/
def setQueueFields (qi : QueueInfo) :
    List (String × Json) → Except Unit QueueInfo
  | [] => .ok qi
  | (k, v) :: fs =>
    match setQueueField qi k v with
    | .error e => .error e
    | .ok qi' => setQueueFields qi' fs

/-- Decode one array element into a `QueueInfo`. -/
def decodeQueueInfo : Json → Except Unit QueueInfo
  | Json.obj fs => setQueueFields zeroQueueInfo fs
  | Json.null => .ok zeroQueueInfo
  | _ => .error ()

/-- Decode the elements of the top-level array. -/
def decodeElems : List Json → Except Unit (List QueueInfo)
  | [] => .ok []
  | x :: xs =>
    match decodeQueueInfo x with
    | .error e => .error e
    | .ok q =>
      match decodeElems xs with
      | .error e => .error e
      | .ok qs => .ok (q :: qs)

/-- The decode step of `getQueues` (main.go 81-85):
`json.Unmarshal(body, &queues)` with `var queues []QueueInfo`. -/
def getQueuesDecode : Json → Except Unit (List QueueInfo)
  | Json.arr xs => decodeElems xs
  | Json.null => .ok []
  | _ => .error ()

/-! ### Well-typedness characterization of the decode

`bodyOk` states, independently of the fold, which documents the decode
accepts: an array (or `null`) of objects (or `null`) in which every entry
whose key matches one of the struct tags carries a value of the matching
JSON type (or `null`). -/

/-- Acceptable value for a `string` field. -/
def strOk : Json → Bool
  | Json.str _ => true
  | Json.null => true
  | _ => false

/-- Acceptable value for an `int` field. -/
def intOk : Json → Bool
  | Json.num q => decide (q.den = 1)
  | Json.null => true
  | _ => false

/-- Acceptable value for a `float64` field. -/
def numOk : Json → Bool
  | Json.num _ => true
  | Json.null => true
  | _ => false

/-- Acceptable element of a `[]string` value. -/
def strElemOk : Json → Bool
  | Json.str _ => true
  | Json.null => true
  | _ => false

/-- Acceptable value for a `[]string` field. -/
def strListOk : Json → Bool
  | Json.arr xs => xs.all strElemOk
  | Json.null => true
  | _ => false

/-- Acceptable value for one `MessageStats` entry, by key. -/
def statsFieldOk (key : String) (v : Json) : Bool :=
  if lowerKey key = "publish" then intOk v
  else if lowerKey key = "deliver_get" then intOk v
  else if lowerKey key = "deliver_get_details.rate" then numOk v
  else if lowerKey key = "ack" then intOk v
  else if lowerKey key = "ack_details.rate" then numOk v
  else true

/-- Acceptable value for the `message_stats` field. -/
def statsObjOk : Json → Bool
  | Json.obj fs => fs.all fun kv => statsFieldOk kv.1 kv.2
  | Json.null => true
  | _ => false

/-- Acceptable value for one `QueueInfo` entry, by key. -/
def fieldOk (key : String) (v : Json) : Bool :=
  if lowerKey key = "name" then strOk v
  else if lowerKey key = "vhost" then strOk v
  else if lowerKey key = "type" then strOk v
  else if lowerKey key = "state" then strOk v
  else if lowerKey key = "features" then strListOk v
  else if lowerKey key = "messages" then intOk v
  else if lowerKey key = "messages_ready" then intOk v
  else if lowerKey key = "messages_unacknowledged" then intOk v
  else if lowerKey key = "message_stats" then statsObjOk v
  else true

/-- Acceptable top-level array element. -/
def elementOk : Json → Bool
  | Json.obj fs => fs.all fun kv => fieldOk kv.1 kv.2
  | Json.null => true
  | _ => false

/-- Acceptable response body for `getQueuesDecode`. -/
def bodyOk : Json → Bool
  | Json.arr xs => xs.all elementOk
  | Json.null => true
  | _ => false

/-! ### The spec's documented shape (claim side)

From the spec's words (§6): "expects a JSON array of queue objects with
fields: name, vhost, type, state, feature list, messages, messages_ready,
messages_unacknowledged, and a nested message-stats object (publish
count, deliver/get count and rate, ack count and rate). Any deviation
from this shape is a decode failure." -/

/-- The object has an entry with this key whose value satisfies `p`. -/
def hasField (fs : List (String × Json)) (key : String) (p : Json → Bool) : Bool :=
  fs.any fun kv => kv.1 == key && p kv.2

/-- The value is a JSON string. -/
def isStrVal : Json → Bool
  | Json.str _ => true
  | _ => false

/-- The value is a JSON number. -/
def isNumVal : Json → Bool
  | Json.num _ => true
  | _ => false

/-- The value is a JSON array of strings (the documented feature list). -/
def isStrArrVal : Json → Bool
  | Json.arr xs => xs.all isStrVal
  | _ => false

/-- The documented message-stats object. -/
def documentedStats (j : Json) : Bool :=
  match j with
  | Json.obj fs =>
    hasField fs "publish" isNumVal && hasField fs "deliver_get" isNumVal &&
    hasField fs "deliver_get_details.rate" isNumVal &&
    hasField fs "ack" isNumVal && hasField fs "ack_details.rate" isNumVal
  | _ => false

/-- The documented queue object. -/
def documentedQueueObj (j : Json) : Bool :=
  match j with
  | Json.obj fs =>
    hasField fs "name" isStrVal && hasField fs "vhost" isStrVal &&
    hasField fs "type" isStrVal && hasField fs "state" isStrVal &&
    hasField fs "features" isStrArrVal && hasField fs "messages" isNumVal &&
    hasField fs "messages_ready" isNumVal &&
    hasField fs "messages_unacknowledged" isNumVal &&
    hasField fs "message_stats" documentedStats
  | _ => false

/-- The spec's documented response shape: a JSON array of queue objects. -/
def documentedShape (j : Json) : Bool :=
  match j with
  | Json.arr xs => xs.all documentedQueueObj
  | _ => false

/-! ## The stats sampling loop (tabwriter variant, main.go 105-133)

Go:
```
for {
    queues, err := getQueues(config)
    if err != nil {
        log.Printf("Error listing queues: %s", err)
        time.Sleep(5 * time.Second)
        continue
    }
    ... render the table from queues ...
    time.Sleep(5 * time.Second)
}
```
One iteration's input is the fetch result; the state is the snapshot list
the screen currently shows.  Outputs per iteration: the new snapshot, the
sleep before the next tick (seconds), and whether the process was
terminated (the loop body contains no fatal exit; `failOnError` runs only
before the loop). -/

/-- One sampling-loop iteration. -/
def loopIter (st : List QueueInfo) (fetch : Except Unit (List QueueInfo)) :
    List QueueInfo × Nat × Bool :=
  match fetch with
  | .error _ => (st, 5, false)
  | .ok qs => (qs, 5, false)

/-- Run the sampling loop over a script of fetch results, collecting the
final snapshot and the sleep taken after each iteration. -/
def samplerRun (st : List QueueInfo) :
    List (Except Unit (List QueueInfo)) → List QueueInfo × List Nat
  | [] => (st, [])
  | f :: fs =>
    let step := loopIter st f
    let rest := samplerRun step.1 fs
    (rest.1, step.2.1 :: rest.2)

/-- C10: for every string `s` and every width `max ≥ 3`, `truncate s max`
has length exactly `max`, equals `s` right-padded with spaces when
`len s ≤ max`, and otherwise equals the first `max - 3` bytes of `s`
followed by `"..."`. -/
theorem truncate_spec (s : List Char) (max : Nat) (h : 3 ≤ max) :
    (truncate s max).length = max ∧
    (s.length ≤ max → truncate s max = s ++ List.replicate (max - s.length) spaceChar) ∧
    (max < s.length → truncate s max = s.take (max - 3) ++ ['.', '.', '.']) := by
  unfold truncate
  by_cases hle : s.length ≤ max
  · refine ⟨?_, fun _ => by simp [hle], fun hlt => absurd hlt (by omega)⟩
    simp [hle]
  · push_neg at hle
    have htake : (s.take (max - 3)).length = max - 3 := by
      rw [List.length_take]
      omega
    have hlen : (s.take (max - 3) ++ ['.', '.', '.']).length = max := by
      simp [htake]
      omega
    refine ⟨?_, fun hc => absurd hc (by omega), fun _ => ?_⟩
    · simp only [if_neg (by omega : ¬ s.length ≤ max)]
      simp [htake]
      omega
    · simp only [if_neg (by omega : ¬ s.length ≤ max)]
      rw [hlen]
      simp

/-- Witness for C10 at a concrete input: `truncate "abcdefgh" 5 = "ab..."`. -/
theorem truncate_spec_witness :
    (truncate ['a','b','c','d','e','f','g','h'] 5).length = 5 ∧
    truncate ['a','b','c','d','e','f','g','h'] 5 = ['a','b','.','.','.'] := by
  have h := truncate_spec ['a','b','c','d','e','f','g','h'] 5 (by decide)
  exact ⟨h.1, by rw [h.2.2 (by decide)]; decide⟩

/-- C2: `AlertEvaluator.evaluate` returns `raise` iff some queue name,
case-insensitively, starts or ends with `"error"` and the cooldown has
elapsed (`now - lastAlertTimestamp ≥ cooldownDuration`); a snapshot with
no matching name never raises; a raise sets `lastAlertTimestamp := now`,
so a second alerting snapshot within the cooldown window is suppressed. -/
theorem alert_evaluate_correct (names : List String) (st : AlertState) (now : Nat) :
    ((AlertEvaluator.evaluate names st now).1 = AlertDecision.raise ↔
      (∃ n ∈ names, isAlerting n = true) ∧
        st.cooldownDuration ≤ now - st.lastAlertTimestamp) ∧
    ((∀ n ∈ names, isAlerting n = false) →
      (AlertEvaluator.evaluate names st now).1 = AlertDecision.suppress) ∧
    ((AlertEvaluator.evaluate names st now).1 = AlertDecision.raise →
      (AlertEvaluator.evaluate names st now).2.lastAlertTimestamp = now ∧
      (AlertEvaluator.evaluate names st now).2.cooldownDuration = st.cooldownDuration) ∧
    (∀ (names2 : List String) (now2 : Nat),
      (AlertEvaluator.evaluate names st now).1 = AlertDecision.raise →
      now2 - now < st.cooldownDuration →
      (AlertEvaluator.evaluate names2 (AlertEvaluator.evaluate names st now).2 now2).1 =
        AlertDecision.suppress) := by
  by_cases h : names.any isAlerting = true ∧
      st.cooldownDuration ≤ now - st.lastAlertTimestamp
  · have hval : AlertEvaluator.evaluate names st now =
        (AlertDecision.raise, { st with lastAlertTimestamp := now }) := by
      unfold AlertEvaluator.evaluate
      rw [if_pos h]
    refine ⟨?_, ?_, ?_, ?_⟩
    · rw [hval]
      exact ⟨fun _ => ⟨List.any_eq_true.mp h.1, h.2⟩, fun _ => rfl⟩
    · intro hall
      exfalso
      rcases List.any_eq_true.mp h.1 with ⟨n, hn, ha⟩
      rw [hall n hn] at ha
      exact Bool.false_ne_true ha
    · intro _
      rw [hval]
      exact ⟨rfl, rfl⟩
    · intro names2 now2 _ hcool
      rw [hval]
      unfold AlertEvaluator.evaluate
      rw [if_neg]
      rintro ⟨-, hle⟩
      dsimp only at hle
      omega
  · have hval : AlertEvaluator.evaluate names st now = (AlertDecision.suppress, st) := by
      unfold AlertEvaluator.evaluate
      rw [if_neg h]
    refine ⟨?_, fun _ => by rw [hval], ?_, ?_⟩
    · rw [hval]
      constructor
      · intro hr
        exact AlertDecision.noConfusion hr
      · rintro ⟨⟨n, hn, ha⟩, hle⟩
        exact absurd ⟨List.any_eq_true.mpr ⟨n, hn, ha⟩, hle⟩ h
    · intro hr
      rw [hval] at hr
      exact AlertDecision.noConfusion hr
    · intro names2 now2 hr _
      rw [hval] at hr
      exact AlertDecision.noConfusion hr

/-- Witness for C2: one alerting queue, cooldown 10 elapsed at time 20,
raises; the updated state suppresses at time 25. -/
theorem alert_evaluate_correct_witness :
    (AlertEvaluator.evaluate ["payments-error", "orders"] ⟨0, 10⟩ 20).1 =
      AlertDecision.raise ∧
    (AlertEvaluator.evaluate ["payments-error"]
      (AlertEvaluator.evaluate ["payments-error", "orders"] ⟨0, 10⟩ 20).2 25).1 =
      AlertDecision.suppress := by
  have h := alert_evaluate_correct ["payments-error", "orders"] ⟨0, 10⟩ 20
  refine ⟨h.1.mpr ⟨⟨"payments-error", by decide⟩, by decide⟩, ?_⟩
  exact h.2.2.2 ["payments-error"] 25
    (h.1.mpr ⟨⟨"payments-error", by decide⟩, by decide⟩) (by decide)

/-! ### Helper lemmas -/

/-- Mapping over an `Except` preserves success. -/
theorem exmap_isOk {α β : Type} (e : Except Unit α) (f : α → β) :
    (e.map f).isOk = e.isOk := by
  cases e <;> rfl

/-- Per-queue projection of the delivery interleaving. -/
theorem processDeliveries_proj (evs : List (String × String))
    (store : String → List String) (r : String) :
    processDeliveries store evs r =
      store r ++ (evs.filter fun e => e.1 == r).map fun e => formatMsg e.1 e.2 := by
  induction evs generalizing store with
  | nil => simp [processDeliveries]
  | cons e evs ih =>
    obtain ⟨q, b⟩ := e
    rw [processDeliveries, ih]
    by_cases hr : r = q
    · subst hr
      simp [appendMessage, List.filter_cons]
    · have hq : ¬ q = r := fun h => hr h.symm
      simp [appendMessage, hr, hq, List.filter_cons]

/-- The consumer goroutine returns iff its script contains a `Consume`
error observed with the channel closed. -/
theorem consumeRun_returns (q : String) (script : List ConsumeAttempt) :
    ∀ buf, (consumeRun q buf script).2 = true ↔
      ConsumeAttempt.consumeErr true ∈ script := by
  induction script with
  | nil => intro buf; simp [consumeRun]
  | cons a rest ih =>
    intro buf
    cases a with
    | consumeErr closed =>
      cases closed with
      | true => simp [consumeRun]
      | false => simp [consumeRun, ih buf]
    | stream bodies => simp [consumeRun, ih]

/-- In every status trace, `stopped` occurs only as the final element. -/
theorem consumeTrace_stopped_last (script : List ConsumeAttempt) :
    ConsumerStatus.stopped ∉ consumeTrace script ∨
    ∃ t, consumeTrace script = t ++ [ConsumerStatus.stopped] ∧
      ConsumerStatus.stopped ∉ t := by
  induction script with
  | nil => left; simp [consumeTrace]
  | cons a rest ih =>
    cases a with
    | consumeErr closed =>
      cases closed with
      | true => right; exact ⟨[], rfl, by simp⟩
      | false =>
        rcases ih with h | ⟨t, ht, hn⟩
        · left
          simp [consumeTrace, h]
        · right
          exact ⟨ConsumerStatus.retrying :: ConsumerStatus.starting :: t,
            by rw [consumeTrace, ht]; simp, by simp [hn]⟩
    | stream bodies =>
      rcases ih with h | ⟨t, ht, hn⟩
      · left
        simp [consumeTrace, h]
      · right
        exact ⟨ConsumerStatus.running :: ConsumerStatus.retrying ::
          ConsumerStatus.starting :: t, by rw [consumeTrace, ht]; simp,
          by simp [hn]⟩

/-- Every sleep the sampling loop takes is the fixed 5 seconds. -/
theorem samplerRun_delays (st : List QueueInfo)
    (fs : List (Except Unit (List QueueInfo))) :
    (samplerRun st fs).2 = List.replicate fs.length 5 := by
  induction fs generalizing st with
  | nil => rfl
  | cons f fs ih =>
    cases f <;> simp [samplerRun, loopIter, List.replicate_succ, ih]

/-- A run of failed fetches leaves the snapshot unchanged. -/
theorem samplerRun_errors_fix (st : List QueueInfo) (n : Nat) :
    (samplerRun st (List.replicate n (.error ()))).1 = st := by
  induction n with
  | zero => rfl
  | succ n ih => simpa [List.replicate_succ, samplerRun, loopIter] using ih

/-! ### Claim theorems (continued) -/

/-- C6: a failed stats fetch leaves the snapshot unchanged, is not fatal,
and the next tick follows after the same fixed 5-second sleep as after a
success; over any script of fetch results every sleep is the constant 5
(no backoff), and any run of consecutive failures keeps the previous
snapshot. -/
theorem sampler_failure_nonfatal :
    (∀ (st : List QueueInfo) (e : Unit), loopIter st (.error e) = (st, 5, false)) ∧
    (∀ (st : List QueueInfo) (fetch : Except Unit (List QueueInfo)),
      (loopIter st fetch).2.1 = 5 ∧ (loopIter st fetch).2.2 = false) ∧
    (∀ (st : List QueueInfo) (fs : List (Except Unit (List QueueInfo))),
      (samplerRun st fs).2 = List.replicate fs.length 5) ∧
    (∀ (st : List QueueInfo) (n : Nat),
      (samplerRun st (List.replicate n (.error ()))).1 = st) := by
  refine ⟨fun st e => rfl, fun st fetch => ?_, samplerRun_delays, samplerRun_errors_fix⟩
  cases fetch <;> exact ⟨rfl, rfl⟩

/-- C8: for every interleaving of deliveries, each queue's buffer is
append-only and ends as the previous buffer plus exactly its own
deliveries, formatted, in receipt order (FIFO); a queue receiving no
deliveries keeps an empty buffer -- no cross-contamination. -/
theorem buffers_fifo_isolated :
    (∀ (store : String → List String) (evs : List (String × String)) (r : String),
      processDeliveries store evs r =
        store r ++ (evs.filter fun e => e.1 == r).map fun e => formatMsg e.1 e.2) ∧
    (∀ (evs : List (String × String)) (r : String),
      (∀ e ∈ evs, e.1 ≠ r) → processDeliveries emptyStore evs r = []) := by
  refine ⟨fun store evs r => processDeliveries_proj evs store r, fun evs r h => ?_⟩
  rw [processDeliveries_proj]
  have : evs.filter (fun e => e.1 == r) = [] := by
    rw [List.filter_eq_nil_iff]
    intro e he
    simpa using h e he
  simp [emptyStore, this]

/-- Witness for C8: three deliveries to `q1`, none to `q2`. -/
theorem buffers_fifo_isolated_witness :
    processDeliveries emptyStore [("q1", "a"), ("q1", "b"), ("q1", "c")] "q1" =
      [formatMsg "q1" "a", formatMsg "q1" "b", formatMsg "q1" "c"] ∧
    processDeliveries emptyStore [("q1", "a"), ("q1", "b"), ("q1", "c")] "q2" = [] := by
  have h := buffers_fifo_isolated
  refine ⟨?_, h.2 _ "q2" (by decide)⟩
  rw [h.1 emptyStore _ "q1"]
  rfl

/-- C9: from `Running`, a subscription stream that ends (or errors) while
the transport is usable moves the task to `Retrying` and, after the fixed
delay, back to `Starting` (resubscribe); a `Consume` failure observed
with the channel closed moves it to `Stopped`, which is terminal --
`stopped` only ever appears as the final status, so a stopped task never
retries. -/
theorem consumeQueue_state_machine :
    (∀ (bodies : List String) (rest : List ConsumeAttempt),
      consumeTrace (ConsumeAttempt.stream bodies :: rest) =
        ConsumerStatus.running :: ConsumerStatus.retrying ::
          ConsumerStatus.starting :: consumeTrace rest) ∧
    (∀ rest : List ConsumeAttempt,
      consumeTrace (ConsumeAttempt.consumeErr false :: rest) =
        ConsumerStatus.retrying :: ConsumerStatus.starting :: consumeTrace rest) ∧
    (∀ rest : List ConsumeAttempt,
      consumeTrace (ConsumeAttempt.consumeErr true :: rest) =
        [ConsumerStatus.stopped]) ∧
    (∀ script : List ConsumeAttempt,
      ConsumerStatus.stopped ∉ consumeTrace script ∨
      ∃ t, consumeTrace script = t ++ [ConsumerStatus.stopped] ∧
        ConsumerStatus.stopped ∉ t) ∧
    (∀ (q : String) (buf : List String) (script : List ConsumeAttempt),
      (consumeRun q buf script).2 = true ↔
        ConsumeAttempt.consumeErr true ∈ script) := by
  exact ⟨fun _ _ => rfl, fun _ => rfl, fun _ => rfl, consumeTrace_stopped_last,
    fun q buf script => consumeRun_returns q script buf⟩

/-- Witness for C9: a stream end retries and resubscribes; a closed
channel stops terminally. -/
theorem consumeQueue_state_machine_witness :
    consumeTrace [ConsumeAttempt.stream ["x"], ConsumeAttempt.consumeErr true] =
      [ConsumerStatus.running, ConsumerStatus.retrying, ConsumerStatus.starting,
        ConsumerStatus.stopped] ∧
    ((consumeRun "q" [] [ConsumeAttempt.consumeErr true]).2 = true) := by
  have h := consumeQueue_state_machine
  constructor
  · rw [h.1 ["x"] [ConsumeAttempt.consumeErr true],
      h.2.2.1 ([] : List ConsumeAttempt)]
  · exact (h.2.2.2.2 "q" [] [ConsumeAttempt.consumeErr true]).mpr (by simp)

/-- When no declare failure finds the channel closed, `startMonitoring`
checks every selected queue exactly once, in order, and starts exactly
the queues whose declare succeeded. -/
theorem startMonitoring_usable (queues : List String)
    (declare : String → DeclareResult)
    (hno : ∀ q ∈ queues, declare q ≠ DeclareResult.fail true) :
    declareCalls queues declare = queues ∧
    startMonitoring queues declare =
      .ok (queues.filter fun q => declare q == DeclareResult.ok) := by
  induction queues with
  | nil => exact ⟨rfl, rfl⟩
  | cons q qs ih =>
    have hq := hno q (List.mem_cons_self q qs)
    obtain ⟨ih1, ih2⟩ := ih fun r hr => hno r (List.mem_cons_of_mem q hr)
    cases hd : declare q with
    | ok =>
      refine ⟨?_, ?_⟩
      · rw [declareCalls, hd]
        simp [ih1]
      · rw [startMonitoring, hd, ih2]
        simp [List.filter_cons, hd]
    | fail closed =>
      cases closed with
      | true => exact absurd hd hq
      | false =>
        refine ⟨?_, ?_⟩
        · rw [declareCalls, hd]
          simp [ih1]
        · rw [startMonitoring, hd, ih2]
          simp [List.filter_cons, hd]

/-- Counterexample to C3 as stated: for the single selected queue `"q1"`
whose passive declare fails while the channel stays open, the existence
check is performed exactly once (`declareCalls` = one call, not repeated),
no consumer is started, and `startMonitoring` returns successfully with
an empty consumer set -- there is no Retrying-and-recheck loop. -/
theorem startMonitoring_no_retry_cex :
    declareCalls ["q1"] (fun _ => DeclareResult.fail false) = ["q1"] ∧
    startMonitoring ["q1"] (fun _ => DeclareResult.fail false) =
      .ok ([] : List String) := ⟨rfl, rfl⟩

/-- C3 amended: a queue whose existence check fails while the channel is
still usable is logged and permanently skipped: `startMonitoring`
performs exactly one passive declare per selected queue (no retry, no
fixed-delay recheck), starts no consumer for the failed queue, and
continues with the remaining queues without aborting. -/
theorem startMonitoring_skips_failed_queue (queues : List String)
    (declare : String → DeclareResult)
    (hno : ∀ q ∈ queues, declare q ≠ DeclareResult.fail true) :
    declareCalls queues declare = queues ∧
    startMonitoring queues declare =
      .ok (queues.filter fun q => declare q == DeclareResult.ok) ∧
    (∀ q, declare q = DeclareResult.fail false →
      q ∉ (queues.filter fun q => declare q == DeclareResult.ok)) := by
  obtain ⟨h1, h2⟩ := startMonitoring_usable queues declare hno
  refine ⟨h1, h2, fun q hq hmem => ?_⟩
  have := (List.mem_filter.mp hmem).2
  rw [hq] at this
  exact absurd (beq_iff_eq.mp this) (by simp)

/-- Witness for C3 amended: queues `a, c` succeed, `b` fails on a usable
channel; all three are declared once, only `a, c` are started. -/
theorem startMonitoring_skips_failed_queue_witness :
    declareCalls ["a", "b", "c"]
      (fun r => if r = "b" then DeclareResult.fail false else DeclareResult.ok) =
      ["a", "b", "c"] ∧
    startMonitoring ["a", "b", "c"]
      (fun r => if r = "b" then DeclareResult.fail false else DeclareResult.ok) =
      .ok ["a", "c"] := by
  have h := startMonitoring_skips_failed_queue ["a", "b", "c"]
    (fun r => if r = "b" then DeclareResult.fail false else DeclareResult.ok)
    (by decide)
  refine ⟨h.1, ?_⟩
  rw [h.2.1]
  rfl

/-- Counterexample to C4 as stated: two selected queues; the first
queue's existence check fails with the channel closed.  The second
queue -- whose own declare would succeed -- is never checked and never
started (`declareCalls` stops at `"q1"`), `startMonitoring` aborts, and
`Update` terminates the process via `log.Fatalf`: one queue's failure
affected the other queue's task and terminated the process. -/
theorem monitoring_not_isolated_cex :
    (fun r => if r = "q1" then DeclareResult.fail true else DeclareResult.ok) "q2" =
      DeclareResult.ok ∧
    declareCalls ["q1", "q2"]
      (fun r => if r = "q1" then DeclareResult.fail true else DeclareResult.ok) =
      ["q1"] ∧
    startMonitoring ["q1", "q2"]
      (fun r => if r = "q1" then DeclareResult.fail true else DeclareResult.ok) =
      .error () ∧
    updateEnterFatal ["q1", "q2"]
      (fun r => if r = "q1" then DeclareResult.fail true else DeclareResult.ok) =
      true := by
  refine ⟨?_, ?_, ?_, ?_⟩ <;> rfl

/-- C4 amended: failures are isolated and non-fatal as long as no
existence check finds the channel closed: every queue whose declare
succeeds is started even when other queues' declares fail, and `Update`
does not terminate the process; a running consumer goroutine exits only
upon observing its own channel closed (per-queue consumption errors only
log and retry); a sampling failure is likewise non-fatal and keeps the
snapshot.  (A closed channel during any declare, by contrast, aborts the
whole startup fatally -- the counterexample.) -/
theorem monitoring_isolation (queues : List String)
    (declare : String → DeclareResult)
    (hno : ∀ q ∈ queues, declare q ≠ DeclareResult.fail true) :
    updateEnterFatal queues declare = false ∧
    (∀ q ∈ queues, declare q = DeclareResult.ok →
      q ∈ (queues.filter fun q => declare q == DeclareResult.ok)) ∧
    startMonitoring queues declare =
      .ok (queues.filter fun q => declare q == DeclareResult.ok) ∧
    (∀ (q : String) (buf : List String) (script : List ConsumeAttempt),
      (consumeRun q buf script).2 = true →
        ConsumeAttempt.consumeErr true ∈ script) ∧
    (∀ (st : List QueueInfo) (e : Unit), loopIter st (.error e) = (st, 5, false)) := by
  obtain ⟨-, h2⟩ := startMonitoring_usable queues declare hno
  refine ⟨?_, ?_, h2, ?_, fun st e => rfl⟩
  · rw [updateEnterFatal, h2]
  · intro q hq hok
    exact List.mem_filter.mpr ⟨hq, by rw [hok]; rfl⟩
  · intro q buf script h
    exact (consumeRun_returns q script buf).mp h

/-- Witness for C4 amended: queue `b` fails on a usable channel, queues
`a, c` succeed; startup is not fatal and both healthy queues start. -/
theorem monitoring_isolation_witness :
    updateEnterFatal ["a", "b", "c"]
      (fun r => if r = "b" then DeclareResult.fail false else DeclareResult.ok) =
      false ∧
    "c" ∈ (["a", "b", "c"].filter fun q =>
      (fun r => if r = "b" then DeclareResult.fail false else DeclareResult.ok) q ==
        DeclareResult.ok) := by
  have h := monitoring_isolation ["a", "b", "c"]
    (fun r => if r = "b" then DeclareResult.fail false else DeclareResult.ok)
    (by decide)
  exact ⟨h.1, h.2.1 "c" (by decide) (by decide)⟩

/-! ### Helper lemmas for the decode characterization -/

/-- Evaluating `isOk` on a success. -/
theorem isOk_ok {α : Type} (a : α) : (Except.ok a : Except Unit α).isOk = true := rfl

/-- Evaluating `isOk` on a failure. -/
theorem isOk_error {α : Type} (e : Unit) :
    (Except.error e : Except Unit α).isOk = false := rfl

/-- String fields accept exactly strings and `null`. -/
theorem goStr_isOk (cur : String) (v : Json) : (goStr cur v).isOk = strOk v := by
  cases v <;> rfl

/-- Int fields accept exactly integral numbers and `null`. -/
theorem goInt_isOk (cur : Int) (v : Json) : (goInt cur v).isOk = intOk v := by
  cases v with
  | null => rfl
  | bool b => rfl
  | num q => by_cases h : q.den = 1 <;> simp [goInt, intOk, h, isOk_ok, isOk_error]
  | str s => rfl
  | arr xs => rfl
  | obj fs => rfl

/-- Float fields accept exactly numbers and `null`. -/
theorem goRat_isOk (cur : Rat) (v : Json) : (goRat cur v).isOk = numOk v := by
  cases v <;> rfl

/-- Elements of a `[]string` accept exactly strings and `null`. -/
theorem goStrElem_isOk (v : Json) : (goStrElem v).isOk = strElemOk v := by
  cases v <;> rfl

/-- A `[]string` array decodes iff every element is acceptable. -/
theorem goStrElems_isOk (xs : List Json) :
    (goStrElems xs).isOk = xs.all strElemOk := by
  induction xs with
  | nil => rfl
  | cons x xs ih =>
    rw [goStrElems]
    cases hx : goStrElem x with
    | error e =>
      have h : strElemOk x = false := by
        rw [← goStrElem_isOk x, hx]
        rfl
      rw [List.all_cons, h, Bool.false_and]
      rfl
    | ok s =>
      have h : strElemOk x = true := by
        rw [← goStrElem_isOk x, hx]
        rfl
      rw [List.all_cons, h, Bool.true_and, ← ih]
      cases hy : goStrElems xs <;> rfl

/-- Fields of type `[]string` accept exactly string arrays and `null`. -/
theorem goStrList_isOk (cur : List String) (v : Json) :
    (goStrList cur v).isOk = strListOk v := by
  cases v with
  | arr xs => exact goStrElems_isOk xs
  | null => rfl
  | bool b => rfl
  | num q => rfl
  | str s => rfl
  | obj fs => rfl

/-- One message-stats entry decodes iff its value fits its key's type. -/
theorem setStatsField_isOk (ms : MessageStats) (k : String) (v : Json) :
    (setStatsField ms k v).isOk = statsFieldOk k v := by
  unfold setStatsField statsFieldOk
  split_ifs <;> simp [exmap_isOk, goInt_isOk, goRat_isOk, isOk_ok]

/-- A message-stats object decodes iff all its entries are acceptable. -/
theorem setStatsFields_isOk (fs : List (String × Json)) :
    ∀ ms, (setStatsFields ms fs).isOk = fs.all fun kv => statsFieldOk kv.1 kv.2 := by
  induction fs with
  | nil => intro ms; rfl
  | cons kv fs ih =>
    intro ms
    obtain ⟨k, v⟩ := kv
    rw [setStatsFields]
    cases hsf : setStatsField ms k v with
    | error e =>
      have h : statsFieldOk k v = false := by
        rw [← setStatsField_isOk ms k v, hsf]
        rfl
      rw [List.all_cons, h, Bool.false_and]
      rfl
    | ok ms' =>
      have h : statsFieldOk k v = true := by
        rw [← setStatsField_isOk ms k v, hsf]
        rfl
      rw [List.all_cons, h, Bool.true_and]
      exact ih ms'

/-- The `message_stats` field accepts exactly acceptable objects, `null`. -/
theorem goStats_isOk (cur : MessageStats) (v : Json) :
    (goStats cur v).isOk = statsObjOk v := by
  cases v with
  | obj fs => exact setStatsFields_isOk fs cur
  | null => rfl
  | bool b => rfl
  | num q => rfl
  | str s => rfl
  | arr xs => rfl

set_option maxHeartbeats 1000000 in
/-- One queue-object entry decodes iff its value fits its key's type. -/
theorem setQueueField_isOk (qi : QueueInfo) (k : String) (v : Json) :
    (setQueueField qi k v).isOk = fieldOk k v := by
  unfold setQueueField fieldOk
  split_ifs <;>
    first
      | rfl
      | rw [exmap_isOk, goStr_isOk]
      | rw [exmap_isOk, goStrList_isOk]
      | rw [exmap_isOk, goInt_isOk]
      | rw [exmap_isOk, goStats_isOk]

/-- A queue object decodes iff all its entries are acceptable. -/
theorem setQueueFields_isOk (fs : List (String × Json)) :
    ∀ qi, (setQueueFields qi fs).isOk = fs.all fun kv => fieldOk kv.1 kv.2 := by
  induction fs with
  | nil => intro qi; rfl
  | cons kv fs ih =>
    intro qi
    obtain ⟨k, v⟩ := kv
    rw [setQueueFields]
    cases hsf : setQueueField qi k v with
    | error e =>
      have h : fieldOk k v = false := by
        rw [← setQueueField_isOk qi k v, hsf]
        rfl
      rw [List.all_cons, h, Bool.false_and]
      rfl
    | ok qi' =>
      have h : fieldOk k v = true := by
        rw [← setQueueField_isOk qi k v, hsf]
        rfl
      rw [List.all_cons, h, Bool.true_and]
      exact ih qi'

/-- An array element decodes iff it is an acceptable object or `null`. -/
theorem decodeQueueInfo_isOk (j : Json) :
    (decodeQueueInfo j).isOk = elementOk j := by
  cases j with
  | obj fs => exact setQueueFields_isOk fs zeroQueueInfo
  | null => rfl
  | bool b => rfl
  | num q => rfl
  | str s => rfl
  | arr xs => rfl

/-- The element list decodes iff every element is acceptable. -/
theorem decodeElems_isOk (xs : List Json) :
    (decodeElems xs).isOk = xs.all elementOk := by
  induction xs with
  | nil => rfl
  | cons x xs ih =>
    rw [decodeElems]
    cases hx : decodeQueueInfo x with
    | error e =>
      have h : elementOk x = false := by
        rw [← decodeQueueInfo_isOk x, hx]
        rfl
      rw [List.all_cons, h, Bool.false_and]
      rfl
    | ok q =>
      have h : elementOk x = true := by
        rw [← decodeQueueInfo_isOk x, hx]
        rfl
      rw [List.all_cons, h, Bool.true_and, ← ih]
      cases hy : decodeElems xs <;> rfl

/-- An array of strings decodes to exactly those strings, in order. -/
theorem goStrElems_map_str (ss : List String) :
    goStrElems (ss.map Json.str) = .ok ss := by
  induction ss with
  | nil => rfl
  | cons s ss ih => rw [List.map_cons, goStrElems, show goStrElem (Json.str s) = .ok s from rfl, ih]

/-- The `features` entry sets the `features` field and continues. -/
theorem setQueueFields_features_step (qi : QueueInfo) (feats : List String)
    (rest : List (String × Json)) :
    setQueueFields qi (("features", Json.arr (feats.map Json.str)) :: rest) =
      setQueueFields { qi with features := feats } rest := by
  have h : setQueueField qi "features" (Json.arr (feats.map Json.str)) =
      .ok { qi with features := feats } := by
    show (goStrElems (feats.map Json.str)).map _ = _
    rw [goStrElems_map_str]
    rfl
  rw [setQueueFields, h]

/-- Counterexample to C7 as stated: the body `[{}]` -- an array with one
empty object -- deviates from the documented shape (every documented
field is missing), yet `json.Unmarshal` decodes it successfully into one
zero-valued `QueueInfo`; "any deviation from this shape is a decode
failure" is false. -/
theorem getQueuesDecode_shape_cex :
    (getQueuesDecode (Json.arr [Json.obj []])).isOk = true ∧
    getQueuesDecode (Json.arr [Json.obj []]) = .ok [zeroQueueInfo] ∧
    documentedShape (Json.arr [Json.obj []]) = false := ⟨rfl, rfl, rfl⟩

/-- C7 amended: the decode succeeds iff the body is a JSON array (or
`null`) of objects (or `null`) in which every entry whose key matches a
documented field carries a value of the matching JSON type (or `null`);
missing fields default to Go zero values, unknown fields are ignored.
When an element carries the documented fields with the documented types,
every decoded count and rate field equals the corresponding JSON value. -/
theorem getQueuesDecode_characterization :
    (∀ j : Json, (getQueuesDecode j).isOk = bodyOk j) ∧
    (∀ (n vh ty st : String) (feats : List String) (m mr mu p dg a : Int)
      (dgr ar : Rat),
      decodeQueueInfo (Json.obj
        [("name", Json.str n), ("vhost", Json.str vh), ("type", Json.str ty),
         ("state", Json.str st), ("features", Json.arr (feats.map Json.str)),
         ("messages", Json.num (m : Rat)), ("messages_ready", Json.num (mr : Rat)),
         ("messages_unacknowledged", Json.num (mu : Rat)),
         ("message_stats", Json.obj
           [("publish", Json.num (p : Rat)), ("deliver_get", Json.num (dg : Rat)),
            ("deliver_get_details.rate", Json.num dgr),
            ("ack", Json.num (a : Rat)), ("ack_details.rate", Json.num ar)])])
        = .ok ⟨n, vh, ty, st, feats, m, mr, mu, ⟨p, dg, dgr, a, ar⟩⟩) := by
  constructor
  · intro j
    cases j with
    | arr xs => exact decodeElems_isOk xs
    | null => rfl
    | bool b => rfl
    | num q => rfl
    | str s => rfl
    | obj fs => rfl
  · intro n vh ty st feats m mr mu p dg a dgr ar
    have h1 : decodeQueueInfo (Json.obj
        [("name", Json.str n), ("vhost", Json.str vh), ("type", Json.str ty),
         ("state", Json.str st), ("features", Json.arr (feats.map Json.str)),
         ("messages", Json.num (m : Rat)), ("messages_ready", Json.num (mr : Rat)),
         ("messages_unacknowledged", Json.num (mu : Rat)),
         ("message_stats", Json.obj
           [("publish", Json.num (p : Rat)), ("deliver_get", Json.num (dg : Rat)),
            ("deliver_get_details.rate", Json.num dgr),
            ("ack", Json.num (a : Rat)), ("ack_details.rate", Json.num ar)])]) =
        setQueueFields (⟨n, vh, ty, st, [], 0, 0, 0, zeroStats⟩ : QueueInfo)
          [("features", Json.arr (feats.map Json.str)),
           ("messages", Json.num (m : Rat)), ("messages_ready", Json.num (mr : Rat)),
           ("messages_unacknowledged", Json.num (mu : Rat)),
           ("message_stats", Json.obj
             [("publish", Json.num (p : Rat)), ("deliver_get", Json.num (dg : Rat)),
              ("deliver_get_details.rate", Json.num dgr),
              ("ack", Json.num (a : Rat)), ("ack_details.rate", Json.num ar)])] := rfl
    rw [h1, setQueueFields_features_step]
    rfl
